import Mathlib

/-!
Verification of the plan-takeoff detection pipeline (`src/pipeline.py`) and the
accepted-regions model (`model.py`).

Embedding conventions: Python floats are idealized as exact rationals for
coordinates and areas; Euclidean edge lengths (which involve square roots) live
in `ℝ`; the `float("inf")` sanity score lives in `EReal`.  Python exceptions are
modelled with `Except PyError`; a Python function that can raise is embedded as
an `Except`-valued function, and one that cannot raise is embedded as total.
-/

namespace PlanTakeoff

/-- A point in pixel space (shapely coordinate tuple). -/
abbrev Point := ℚ × ℚ

/-- A shapely `Polygon`, identified with the coordinate list it was constructed
from.  The empty list is the empty polygon (`Polygon.is_empty`). -/
abbrev Polygon := List Point

/-- The exterior coordinate ring of a shapely polygon: shapely closes the ring
by repeating the first coordinate at the end unless the input is already
closed.  `polygon.exterior.coords` enumerates exactly this ring. -/
def ringOf : Polygon → List Point
  | [] => []
  | a :: rest =>
    if (a :: rest).getLast? = some a then a :: rest else (a :: rest) ++ [a]

/-- `len(polygon.exterior.coords)` — the vertex count used by the filter. -/
def coordsCount (p : Polygon) : ℕ := (ringOf p).length

/-- Twice the signed shoelace area, summed over consecutive ring points. -/
def shoelaceSum : List Point → ℚ
  | [] => 0
  | [_] => 0
  | a :: b :: rest => (a.1 * b.2 - b.1 * a.2) + shoelaceSum (b :: rest)

/-- `polygon.area`: absolute shoelace area of the exterior ring (shapely/GEOS
area is always non-negative). -/
def polyArea (p : Polygon) : ℚ := |shoelaceSum (ringOf p)| / 2

/-- Euclidean length of one ring edge. -/
noncomputable def edgeLen (a b : Point) : ℝ :=
  Real.sqrt ((((a.1 - b.1) ^ 2 + (a.2 - b.2) ^ 2 : ℚ)) : ℝ)

/-- `polygon.length`: sum of consecutive-vertex Euclidean distances over the
closed exterior ring (the closing edge is included because the ring repeats
the first point). -/
noncomputable def polyLength (p : Polygon) : ℝ :=
  (((ringOf p).zip (ringOf p).tail).map (fun e => edgeLen e.1 e.2)).sum

/-- A raised Python `ValueError`, carrying its message. -/
inductive PyError where
  | valueError (msg : String)
deriving DecidableEq

/-- The frozen dataclass `Calibration` of `pipeline.py`.  Its generated
constructor stores the two fields and performs no validation. -/
structure Calibration where
  pixel_distance : ℚ
  real_distance_feet : ℚ

/-- The `feet_per_pixel` property: validates both fields on access and raises
`ValueError` for non-positive values, otherwise returns the quotient. -/
def feetPerPixel (c : Calibration) : Except PyError ℚ :=
  if c.pixel_distance ≤ 0 then .error (.valueError ("pixel_distance must be > 0"))
  else if c.real_distance_feet ≤ 0 then .error (.valueError ("real_distance_feet must be > 0"))
  else .ok (c.real_distance_feet / c.pixel_distance)

/-- `compute_geometry`: evaluates `feet_per_pixel` first (propagating its
error) and then converts pixel area and perimeter to physical units. -/
noncomputable def computeGeometry (p : Polygon) (c : Calibration) :
    Except PyError (ℚ × ℝ) :=
  match feetPerPixel c with
  | .error e => .error e
  | .ok fpp => .ok (polyArea p * fpp ^ 2, polyLength p * (fpp : ℝ))

/-- `sanity_score`: raw pixel perimeter over raw pixel area, `+∞` (Python
`float("inf")`) for a zero-area polygon. -/
noncomputable def sanityScore (p : Polygon) : EReal :=
  if polyArea p = 0 then ⊤
  else (((polyLength p / ((polyArea p : ℚ) : ℝ)) : ℝ) : EReal)

open Classical in
/-- The boolean `flagged = score > config.sanity_ratio_threshold`. -/
noncomputable def sanityFlag (thr : ℚ) (score : EReal) : Bool :=
  decide ((((thr : ℝ)) : EReal) < score)

/-- The frozen dataclass `CandidateMetrics`. -/
@[ext]
structure CandidateMetrics where
  contour_index : ℕ
  area_sqft : ℚ
  perimeter_lf : ℝ
  vertex_count : ℕ
  sanity_score : EReal
  flagged : Bool

/-- The frozen dataclass `PipelineConfig`. -/
structure PipelineConfig where
  dpi : ℕ
  adaptive_block_size : ℤ
  adaptive_c : ℤ
  line_weight_threshold_px : ℤ
  close_kernel_px : Option ℤ
  min_area_sqft : ℚ
  max_vertex_count : ℤ
  sanity_ratio_threshold : ℚ

/-- The defaults declared on `PipelineConfig`. -/
def defaultConfig : PipelineConfig :=
  ⟨600, 35, 10, 5, some 3, 1, 1000, 4 / 5⟩

/-- `defaultConfig` with only `sanity_ratio_threshold` replaced. -/
def setThreshold (cfg : PipelineConfig) (t : ℚ) : PipelineConfig :=
  ⟨cfg.dpi, cfg.adaptive_block_size, cfg.adaptive_c, cfg.line_weight_threshold_px,
    cfg.close_kernel_px, cfg.min_area_sqft, cfg.max_vertex_count, t⟩

/-- The frozen dataclass `PipelineResult`. -/
structure PipelineResult where
  polygons : List Polygon
  metrics : List CandidateMetrics

/-- The `CandidateMetrics` record that `filter_candidates` builds for the
polygon at input position `idx`, given the already-validated scale `fpp`. -/
noncomputable def mkMetric (fpp : ℚ) (cfg : PipelineConfig) (idx : ℕ)
    (p : Polygon) : CandidateMetrics :=
  ⟨idx, polyArea p * fpp ^ 2, polyLength p * (fpp : ℝ), coordsCount p,
    sanityScore p, sanityFlag cfg.sanity_ratio_threshold (sanityScore p)⟩

/-- The loop body of `filter_candidates`, starting from input index `n`:
empty polygons are skipped; otherwise `compute_geometry` runs (raising if the
calibration is invalid); candidates below the area floor or above the vertex
ceiling are skipped; survivors are appended with their metrics. -/
noncomputable def filterFrom (calib : Calibration) (cfg : PipelineConfig) :
    ℕ → List Polygon → Except PyError PipelineResult
  | _, [] => .ok ⟨[], []⟩
  | n, p :: rest =>
    if p = [] then filterFrom calib cfg (n + 1) rest
    else
      match computeGeometry p calib with
      | .error e => .error e
      | .ok g =>
        if g.1 < cfg.min_area_sqft then filterFrom calib cfg (n + 1) rest
        else if cfg.max_vertex_count < (coordsCount p : ℤ) then
          filterFrom calib cfg (n + 1) rest
        else
          match filterFrom calib cfg (n + 1) rest with
          | .error e => .error e
          | .ok r =>
            .ok ⟨p :: r.polygons,
              ⟨n, g.1, g.2, coordsCount p, sanityScore p,
                sanityFlag cfg.sanity_ratio_threshold (sanityScore p)⟩ :: r.metrics⟩

/-- `filter_candidates` over the whole input sequence. -/
noncomputable def filterCandidates (ps : List Polygon) (calib : Calibration)
    (cfg : PipelineConfig) : Except PyError PipelineResult :=
  filterFrom calib cfg 0 ps

/-- Error-free reference form of the filter once the calibration has been
validated to the scale `fpp`; `filterFrom` is proved to agree with it. -/
noncomputable def filterPure (fpp : ℚ) (cfg : PipelineConfig) :
    ℕ → List Polygon → PipelineResult
  | _, [] => ⟨[], []⟩
  | n, p :: rest =>
    if p = [] then filterPure fpp cfg (n + 1) rest
    else if polyArea p * fpp ^ 2 < cfg.min_area_sqft then
      filterPure fpp cfg (n + 1) rest
    else if cfg.max_vertex_count < (coordsCount p : ℤ) then
      filterPure fpp cfg (n + 1) rest
    else
      let r := filterPure fpp cfg (n + 1) rest
      ⟨p :: r.polygons, mkMetric fpp cfg n p :: r.metrics⟩

/-! ## CSV export (`export_to_csv`)

The file is modelled as its list of lines; each line is the comma-join of the
row's fields, exactly as `csv.DictWriter` emits them for these values (none of
which need quoting).  Numeric fields are serialized by Python `str`; under the
exact-rational idealization this is the terminating decimal expansion, with
integers printed as `X.0` as Python does for floats. -/

/-- Exact decimal rendering of a rational, matching Python `str` on floats
whose value is a terminating decimal (an integer value prints as `X.0`).
Rationals without a terminating decimal expansion (which cannot arise from
Python floats) fall back to the raw fraction text. -/
def ratNumDenStr (num : ℤ) (den : ℕ) : String :=
  match (List.range 41).find? (fun k => 10 ^ k % den == 0) with
  | some 0 => toString num ++ ".0"
  | some k =>
    let s := if num < 0 then "-" else ""
    let digits := num.natAbs * (10 ^ k / den)
    let ip := digits / 10 ^ k
    let fp := digits % 10 ^ k
    let fs := toString fp
    s ++ toString ip ++ "." ++ String.mk (List.replicate (k - fs.length) '0') ++ fs
  | none => toString num ++ "/" ++ toString den

def ratToPyStr (q : ℚ) : String := ratNumDenStr q.num q.den

open Classical in
/-- Python `str` on a float field, on the real-number idealization: defined on
the rational-valued reals (the only values Python floats take) via
`ratToPyStr`. -/
noncomputable def renderReal (x : ℝ) : String :=
  if h : ∃ q : ℚ, ((q : ℝ)) = x then ratToPyStr h.choose else toString ""

/-- Python `str` on the sanity-score field: `float("inf")` prints `inf`. -/
noncomputable def renderEReal (x : EReal) : String :=
  if x = ⊤ then "inf" else if x = ⊥ then "-inf" else renderReal x.toReal

/-- Python `str` on a bool: `True` / `False`. -/
def pyBoolStr (b : Bool) : String := if b then "True" else "False"

/-- The CSV header fields, in the order `export_to_csv` declares them. -/
def csvHeaderFields : List String :=
  ["contour_index", "area_sqft", "perimeter_lf", "vertex_count",
    "sanity_score", "flagged"]

/-- One data row of the export, as written by `csv.DictWriter.writerow`. -/
noncomputable def csvFields (m : CandidateMetrics) : List String :=
  [toString m.contour_index, ratToPyStr m.area_sqft, renderReal m.perimeter_lf,
    toString m.vertex_count, renderEReal m.sanity_score, pyBoolStr m.flagged]

/-- The lines of the exported file: the header line followed by one line per
metric record, in order; existing file content is replaced wholesale (mode
`"w"`). -/
noncomputable def exportLines (ms : List CandidateMetrics) : List String :=
  String.intercalate "," csvHeaderFields ::
    ms.map (fun m => String.intercalate "," (csvFields m))

/-! ## Binarizer and thickness gate (`adaptive_binarize`, `thickness_gate`)

The cv2 primitives are external collaborators; the definitions are parametric
in them, so every theorem below holds for every choice of primitive. -/

/-- `adaptive_binarize`: raises `ValueError` for an even block size before
invoking the external thresholding primitive. -/
def adaptiveBinarize {R : Type} (thresh : ℤ → ℤ → R → R) (gray : R)
    (block_size c : ℤ) : Except PyError R :=
  if block_size % 2 = 0 then .error (.valueError ("adaptive_block_size must be odd"))
  else .ok (thresh block_size c gray)

/-- `thickness_gate`: morphological open with the line-weight kernel, then a
close only when `close_kernel_px` is truthy (`if close_kernel_px:` — `None`
and `0` both skip the close).  No kernel-size validation is performed. -/
def thicknessGate {R : Type} (morphOpen : ℤ → R → R) (morphClose : ℤ → R → R)
    (binary : R) (line_weight_threshold_px : ℤ) (close_kernel_px : Option ℤ) : R :=
  let opened := morphOpen line_weight_threshold_px binary
  match close_kernel_px with
  | none => opened
  | some k => if k ≠ 0 then morphClose k opened else opened

/-! ## Accepted-regions model (`model.py`) -/

/-- The dataclass `AcceptedRegion`. -/
structure AcceptedRegion where
  page : ℤ
  region_id : ℕ
  area_sqft : ℚ
  perimeter_lf : ℚ
  polygon_points : List (ℚ × ℚ)
deriving DecidableEq

/-- The mutable state of `AcceptedRegionsModel`. -/
structure ARModel where
  regionList : List AcceptedRegion
  next_id : ℕ

/-- `AcceptedRegionsModel.__init__`: empty region list, ids start at 1. -/
def ARModel.init : ARModel := ⟨[], 1⟩

/-- `add_region`: builds the region with the current `_next_id`, appends it,
increments the counter, and returns the new state with the region. -/
def addRegion (m : ARModel) (page : ℤ) (area_sqft perimeter_lf : ℚ)
    (pts : List (ℚ × ℚ)) : ARModel × AcceptedRegion :=
  let r : AcceptedRegion := ⟨page, m.next_id, area_sqft, perimeter_lf, pts⟩
  (⟨m.regionList ++ [r], m.next_id + 1⟩, r)

/-- `remove_region`: keeps exactly the regions whose id differs. -/
def removeRegion (m : ARModel) (region_id : ℕ) : ARModel :=
  ⟨m.regionList.filter (fun r => r.region_id != region_id), m.next_id⟩

/-- The states an `AcceptedRegionsModel` can reach from construction through
any sequence of `add_region` / `remove_region` calls. -/
inductive Reachable : ARModel → Prop
  | init : Reachable ARModel.init
  | add (m : ARModel) (page : ℤ) (a p : ℚ) (pts : List (ℚ × ℚ)) :
      Reachable m → Reachable (addRegion m page a p pts).1
  | remove (m : ARModel) (i : ℕ) : Reachable m → Reachable (removeRegion m i)

/-! ## Concrete scenario inputs -/

/-- Calibration with `pixel_distance=100`, `real_distance_feet=10`. -/
def calib100 : Calibration := ⟨100, 10⟩

/-- Axis-aligned rectangle of pixel width 100 and height 50, as the four-corner
vertex list a contour trace produces. -/
def rectPoly : Polygon := [(0, 0), (100, 0), (100, 50), (0, 50)]

/-- The metric record the filter actually emits for `rectPoly` under
`calib100` and `defaultConfig`. -/
noncomputable def rectMetric : CandidateMetrics :=
  ⟨0, 50, (((30 : ℚ)) : ℝ), 5, ((((3 / 50 : ℚ) : ℝ)) : EReal), false⟩

/-- A triangle of pixel area 1/2: physically far below the default area floor. -/
def tinyTri : Polygon := [(0, 0), (1, 0), (0, 1)]

/-! ## Helper lemmas -/

lemma edgeLen_eval (a b : Point) (r : ℝ) (hr : 0 ≤ r)
    (h : ((((a.1 - b.1) ^ 2 + (a.2 - b.2) ^ 2 : ℚ)) : ℝ) = r ^ 2) :
    edgeLen a b = r := by
  rw [edgeLen, h]
  exact Real.sqrt_sq hr

lemma ringOf_rect :
    ringOf rectPoly = [(0, 0), (100, 0), (100, 50), (0, 50), (0, 0)] := by
  rw [rectPoly, ringOf]
  norm_num

lemma polyArea_rect : polyArea rectPoly = 5000 := by
  rw [polyArea, ringOf_rect, shoelaceSum, shoelaceSum, shoelaceSum, shoelaceSum,
    shoelaceSum]
  norm_num

lemma coordsCount_rect : coordsCount rectPoly = 5 := by
  rw [coordsCount, ringOf_rect]
  rfl

lemma polyLength_rect : polyLength rectPoly = 300 := by
  have e1 : edgeLen ((0 : ℚ), (0 : ℚ)) (100, 0) = 100 :=
    edgeLen_eval _ _ 100 (by norm_num) (by push_cast; norm_num)
  have e2 : edgeLen ((100 : ℚ), (0 : ℚ)) (100, 50) = 50 :=
    edgeLen_eval _ _ 50 (by norm_num) (by push_cast; norm_num)
  have e3 : edgeLen ((100 : ℚ), (50 : ℚ)) (0, 50) = 100 :=
    edgeLen_eval _ _ 100 (by norm_num) (by push_cast; norm_num)
  have e4 : edgeLen ((0 : ℚ), (50 : ℚ)) (0, 0) = 50 :=
    edgeLen_eval _ _ 50 (by norm_num) (by push_cast; norm_num)
  show ([edgeLen ((0 : ℚ), (0 : ℚ)) (100, 0), edgeLen (100, 0) (100, 50),
    edgeLen (100, 50) (0, 50), edgeLen (0, 50) (0, 0)]).sum = 300
  rw [List.sum_cons, List.sum_cons, List.sum_cons, List.sum_cons, List.sum_nil,
    e1, e2, e3, e4]
  norm_num

lemma sanityScore_rect : sanityScore rectPoly = ((((3 / 50 : ℚ) : ℝ)) : EReal) := by
  rw [sanityScore, if_neg (by rw [polyArea_rect]; norm_num)]
  rw [polyLength_rect, polyArea_rect]
  norm_num

lemma sanityFlag_rect :
    sanityFlag defaultConfig.sanity_ratio_threshold (sanityScore rectPoly) = false := by
  rw [sanityScore_rect, sanityFlag]
  apply decide_eq_false
  rw [EReal.coe_lt_coe_iff]
  push_cast
  norm_num [defaultConfig]

lemma feetPerPixel_calib100 : feetPerPixel calib100 = .ok (1 / 10) := by
  rw [feetPerPixel, calib100]
  norm_num

lemma mkMetric_rect : mkMetric (1 / 10) defaultConfig 0 rectPoly = rectMetric := by
  rw [mkMetric, rectMetric]
  ext
  · rfl
  · rw [polyArea_rect]; norm_num
  · rw [polyLength_rect]; push_cast; norm_num
  · rw [coordsCount_rect]
  · rw [sanityScore_rect]
  · rw [sanityFlag_rect]

lemma filterFrom_nil (calib : Calibration) (cfg : PipelineConfig) (n : ℕ) :
    filterFrom calib cfg n [] = .ok ⟨[], []⟩ := rfl

lemma filterFrom_ok (calib : Calibration) (cfg : PipelineConfig) (fpp : ℚ)
    (h : feetPerPixel calib = .ok fpp) :
    ∀ (n : ℕ) (ps : List Polygon),
      filterFrom calib cfg n ps = .ok (filterPure fpp cfg n ps) := by
  intro n ps
  induction ps generalizing n with
  | nil => rfl
  | cons p rest ih =>
    rw [filterFrom, filterPure]
    by_cases hp : p = []
    · rw [if_pos hp, if_pos hp, ih]
    · have hg : computeGeometry p calib =
          .ok (polyArea p * fpp ^ 2, polyLength p * (fpp : ℝ)) := by
        rw [computeGeometry, h]
      simp only [if_neg hp, hg]
      by_cases h1 : polyArea p * fpp ^ 2 < cfg.min_area_sqft
      · simp only [if_pos h1, ih]
      · simp only [if_neg h1]
        by_cases h2 : cfg.max_vertex_count < (coordsCount p : ℤ)
        · simp only [if_pos h2, ih]
        · simp only [if_neg h2, ih, mkMetric]

lemma rect_run :
    filterCandidates [rectPoly] calib100 defaultConfig =
      .ok ⟨[rectPoly], [rectMetric]⟩ := by
  rw [filterCandidates, filterFrom_ok calib100 defaultConfig (1 / 10) feetPerPixel_calib100]
  rw [filterPure]
  rw [if_neg (by decide : ¬ rectPoly = [])]
  rw [if_neg (by rw [polyArea_rect]; norm_num [defaultConfig])]
  rw [if_neg (by rw [coordsCount_rect]; norm_num [defaultConfig])]
  rw [filterPure, mkMetric_rect]

lemma ratToPyStr_eval (q : ℚ) (n : ℤ) (d : ℕ) (hn : q.num = n) (hd : q.den = d) :
    ratToPyStr q = ratNumDenStr n d := by
  rw [ratToPyStr, hn, hd]

lemma renderReal_coe (q : ℚ) : renderReal ((q : ℝ)) = ratToPyStr q := by
  have hex : ∃ p : ℚ, ((p : ℝ)) = ((q : ℝ)) := ⟨q, rfl⟩
  rw [renderReal, dif_pos hex]
  have h2 : ((hex.choose : ℝ)) = ((q : ℝ)) := hex.choose_spec
  have h3 : hex.choose = q := by exact_mod_cast h2
  rw [h3]

lemma renderEReal_coe (x : ℝ) : renderEReal (((x : ℝ)) : EReal) = renderReal x := by
  rw [renderEReal, if_neg (EReal.coe_ne_top x), if_neg (EReal.coe_ne_bot x),
    EReal.toReal_coe]

lemma exportLines_rect :
    exportLines [rectMetric] =
      ["contour_index,area_sqft,perimeter_lf,vertex_count,sanity_score,flagged",
        "0,50.0,30.0,5,0.06,False"] := by
  rw [exportLines, List.map_cons, List.map_nil, csvFields, rectMetric]
  rw [renderReal_coe, renderEReal_coe, renderReal_coe]
  rw [ratToPyStr_eval (50 : ℚ) 50 1 (by norm_num) (by norm_num)]
  rw [ratToPyStr_eval (30 : ℚ) 30 1 (by norm_num) (by norm_num)]
  rw [ratToPyStr_eval (3 / 50 : ℚ) 3 50 (by norm_num) (by norm_num)]
  decide

/-- Structural description of one emitted record: `m` is the metric built for
the non-empty polygon `q` sitting at some input offset `j`, and `q` passed
both hard filters. -/
def emittedAt (fpp : ℚ) (cfg : PipelineConfig) (n : ℕ) (ps : List Polygon)
    (q : Polygon) (m : CandidateMetrics) : Prop :=
  ∃ j, ∃ hj : j < ps.length, m.contour_index = n + j ∧ q = ps.get ⟨j, hj⟩ ∧
    q ≠ [] ∧ ¬ polyArea q * fpp ^ 2 < cfg.min_area_sqft ∧
    ¬ cfg.max_vertex_count < ((coordsCount q : ℤ)) ∧
    m = mkMetric fpp cfg (n + j) q

lemma emittedAt_cons (fpp : ℚ) (cfg : PipelineConfig) (n : ℕ) (p : Polygon)
    (rest : List Polygon) (q : Polygon) (m : CandidateMetrics)
    (h : emittedAt fpp cfg (n + 1) rest q m) :
    emittedAt fpp cfg n (p :: rest) q m := by
  obtain ⟨j, hj, hidx, hq, hne, ha, hv, hm⟩ := h
  refine ⟨j + 1, by simpa using Nat.succ_lt_succ hj, by omega, hq, hne, ha, hv, ?_⟩
  rw [hm]
  congr 1
  omega

lemma filterPure_forall2 (fpp : ℚ) (cfg : PipelineConfig) :
    ∀ (n : ℕ) (ps : List Polygon),
      List.Forall₂ (emittedAt fpp cfg n ps)
        (filterPure fpp cfg n ps).polygons (filterPure fpp cfg n ps).metrics := by
  intro n ps
  induction ps generalizing n with
  | nil => exact List.Forall₂.nil
  | cons p rest ih =>
    rw [filterPure]
    by_cases hp : p = []
    · rw [if_pos hp]
      exact (ih (n + 1)).imp (fun q m => emittedAt_cons fpp cfg n p rest q m)
    · rw [if_neg hp]
      by_cases h1 : polyArea p * fpp ^ 2 < cfg.min_area_sqft
      · rw [if_pos h1]
        exact (ih (n + 1)).imp (fun q m => emittedAt_cons fpp cfg n p rest q m)
      · rw [if_neg h1]
        by_cases h2 : cfg.max_vertex_count < ((coordsCount p : ℤ))
        · rw [if_pos h2]
          exact (ih (n + 1)).imp (fun q m => emittedAt_cons fpp cfg n p rest q m)
        · rw [if_neg h2]
          refine List.Forall₂.cons ⟨0, Nat.succ_pos _, rfl, rfl, hp, h1, h2, rfl⟩
            ((ih (n + 1)).imp (fun q m => emittedAt_cons fpp cfg n p rest q m))

lemma filterPure_index_lb (fpp : ℚ) (cfg : PipelineConfig) :
    ∀ (n : ℕ) (ps : List Polygon) (m : CandidateMetrics),
      m ∈ (filterPure fpp cfg n ps).metrics → n ≤ m.contour_index := by
  intro n ps
  induction ps generalizing n with
  | nil => intro m hm; simp [filterPure] at hm
  | cons p rest ih =>
    intro m hm
    rw [filterPure] at hm
    by_cases hp : p = []
    · rw [if_pos hp] at hm
      exact Nat.le_of_succ_le (ih (n + 1) m hm)
    · rw [if_neg hp] at hm
      by_cases h1 : polyArea p * fpp ^ 2 < cfg.min_area_sqft
      · rw [if_pos h1] at hm
        exact Nat.le_of_succ_le (ih (n + 1) m hm)
      · rw [if_neg h1] at hm
        by_cases h2 : cfg.max_vertex_count < ((coordsCount p : ℤ))
        · rw [if_pos h2] at hm
          exact Nat.le_of_succ_le (ih (n + 1) m hm)
        · rw [if_neg h2] at hm
          rcases List.mem_cons.mp hm with h | h
          · rw [h]; exact Nat.le_refl n
          · exact Nat.le_of_succ_le (ih (n + 1) m h)

lemma filterPure_pairwise (fpp : ℚ) (cfg : PipelineConfig) :
    ∀ (n : ℕ) (ps : List Polygon),
      ((filterPure fpp cfg n ps).metrics.map CandidateMetrics.contour_index).Pairwise
        (· < ·) := by
  intro n ps
  induction ps generalizing n with
  | nil => simp [filterPure]
  | cons p rest ih =>
    rw [filterPure]
    by_cases hp : p = []
    · rw [if_pos hp]; exact ih (n + 1)
    · rw [if_neg hp]
      by_cases h1 : polyArea p * fpp ^ 2 < cfg.min_area_sqft
      · rw [if_pos h1]; exact ih (n + 1)
      · rw [if_neg h1]
        by_cases h2 : cfg.max_vertex_count < ((coordsCount p : ℤ))
        · rw [if_pos h2]; exact ih (n + 1)
        · rw [if_neg h2]
          refine List.Pairwise.cons ?_ (ih (n + 1))
          intro b hb
          obtain ⟨m, hm, hb⟩ := List.mem_map.mp hb
          have := filterPure_index_lb fpp cfg (n + 1) rest m hm
          show (mkMetric fpp cfg n p).contour_index < b
          rw [← hb]
          exact Nat.lt_of_succ_le this

lemma filterPure_complete (fpp : ℚ) (cfg : PipelineConfig) :
    ∀ (n : ℕ) (ps : List Polygon) (j : ℕ) (hj : j < ps.length),
      ps.get ⟨j, hj⟩ ≠ [] →
      ¬ polyArea (ps.get ⟨j, hj⟩) * fpp ^ 2 < cfg.min_area_sqft →
      ¬ cfg.max_vertex_count < ((coordsCount (ps.get ⟨j, hj⟩) : ℤ)) →
      (n + j) ∈ (filterPure fpp cfg n ps).metrics.map CandidateMetrics.contour_index := by
  intro n ps
  induction ps generalizing n with
  | nil => intro j hj; exact absurd hj (by simp)
  | cons p rest ih =>
    intro j hj hne ha hv
    cases j with
    | zero =>
      have hne2 : p ≠ [] := hne
      have ha2 : ¬ polyArea p * fpp ^ 2 < cfg.min_area_sqft := ha
      have hv2 : ¬ cfg.max_vertex_count < ((coordsCount p : ℤ)) := hv
      rw [filterPure, if_neg hne2, if_neg ha2, if_neg hv2]
      exact List.mem_cons.mpr (Or.inl rfl)
    | succ j =>
      have hj2 : j < rest.length := by simpa using hj
      have hrec := ih (n + 1) j hj2 hne ha hv
      have hcast : n + (j + 1) = (n + 1) + j := by omega
      rw [filterPure]
      by_cases hp : p = []
      · rw [if_pos hp, hcast]; exact hrec
      · rw [if_neg hp]
        by_cases h1 : polyArea p * fpp ^ 2 < cfg.min_area_sqft
        · rw [if_pos h1, hcast]; exact hrec
        · rw [if_neg h1]
          by_cases h2 : cfg.max_vertex_count < ((coordsCount p : ℤ))
          · rw [if_pos h2, hcast]; exact hrec
          · rw [if_neg h2]
            refine List.mem_cons.mpr (Or.inr ?_)
            rw [hcast]
            exact hrec

lemma filterFrom_error (calib : Calibration) (cfg : PipelineConfig) (e : PyError)
    (hcal : feetPerPixel calib = .error e) :
    ∀ (n : ℕ) (ps : List Polygon) (res : PipelineResult),
      filterFrom calib cfg n ps = .ok res →
      res = ⟨[], []⟩ ∧ ∀ p ∈ ps, p = [] := by
  intro n ps
  induction ps generalizing n with
  | nil =>
    intro res h
    rw [filterFrom_nil] at h
    exact ⟨(Except.ok.injEq _ _).mp h.symm, by simp⟩
  | cons p rest ih =>
    intro res h
    rw [filterFrom] at h
    by_cases hp : p = []
    · rw [if_pos hp] at h
      obtain ⟨hres, hall⟩ := ih (n + 1) res h
      refine ⟨hres, ?_⟩
      intro p2 hp2
      rcases List.mem_cons.mp hp2 with h2 | h2
      · rw [h2]; exact hp
      · exact hall p2 h2
    · exfalso
      rw [if_neg hp] at h
      have hg : computeGeometry p calib = .error e := by rw [computeGeometry, hcal]
      rw [hg] at h
      exact Except.noConfusion h

lemma filterFrom_ok_inv (calib : Calibration) (cfg : PipelineConfig) (n : ℕ)
    (ps : List Polygon) (res : PipelineResult)
    (h : filterFrom calib cfg n ps = .ok res) :
    (∃ fpp, feetPerPixel calib = .ok fpp ∧ res = filterPure fpp cfg n ps) ∨
      (res = ⟨[], []⟩ ∧ ∀ p ∈ ps, p = []) := by
  cases hcal : feetPerPixel calib with
  | ok fpp =>
    left
    refine ⟨fpp, rfl, ?_⟩
    rw [filterFrom_ok calib cfg fpp hcal] at h
    exact ((Except.ok.injEq _ _).mp h).symm
  | error e => exact Or.inr (filterFrom_error calib cfg e hcal n ps res h)

lemma filterFrom_setThreshold (calib : Calibration) (cfg : PipelineConfig) (t : ℚ) :
    ∀ (n : ℕ) (ps : List Polygon),
      (filterFrom calib (setThreshold cfg t) n ps).map PipelineResult.polygons =
        (filterFrom calib cfg n ps).map PipelineResult.polygons := by
  intro n ps
  induction ps generalizing n with
  | nil => rfl
  | cons p rest ih =>
    rw [filterFrom, filterFrom]
    by_cases hp : p = []
    · rw [if_pos hp, if_pos hp]; exact ih (n + 1)
    · rw [if_neg hp, if_neg hp]
      cases hg : computeGeometry p calib with
      | error e => rfl
      | ok g =>
        show Except.map _ (if g.1 < (setThreshold cfg t).min_area_sqft then _ else _) =
          Except.map _ (if g.1 < cfg.min_area_sqft then _ else _)
        have hmin : (setThreshold cfg t).min_area_sqft = cfg.min_area_sqft := rfl
        have hmax : (setThreshold cfg t).max_vertex_count = cfg.max_vertex_count := rfl
        rw [hmin]
        by_cases h1 : g.1 < cfg.min_area_sqft
        · rw [if_pos h1, if_pos h1]; exact ih (n + 1)
        · rw [if_neg h1, if_neg h1, hmax]
          by_cases h2 : cfg.max_vertex_count < ((coordsCount p : ℤ))
          · rw [if_pos h2, if_pos h2]; exact ih (n + 1)
          · rw [if_neg h2, if_neg h2]
            have ih2 := ih (n + 1)
            cases hr1 : filterFrom calib (setThreshold cfg t) (n + 1) rest with
            | error e1 =>
              cases hr2 : filterFrom calib cfg (n + 1) rest with
              | error e2 =>
                rw [hr1, hr2] at ih2
                simp only [Except.map] at ih2
                have : e1 = e2 := by
                  injection ih2
                rw [this]
              | ok r2 =>
                rw [hr1, hr2] at ih2
                simp only [Except.map] at ih2
                exact absurd ih2 (by simp)
            | ok r1 =>
              cases hr2 : filterFrom calib cfg (n + 1) rest with
              | error e2 =>
                rw [hr1, hr2] at ih2
                simp only [Except.map] at ih2
                exact absurd ih2 (by simp)
              | ok r2 =>
                rw [hr1, hr2] at ih2
                simp only [Except.map] at ih2
                have hpoly : r1.polygons = r2.polygons := by injection ih2
                simp only [Except.map, hpoly]

lemma emitted_of_mem (fpp : ℚ) (cfg : PipelineConfig) (n : ℕ) (ps : List Polygon)
    (m : CandidateMetrics) (hm : m ∈ (filterPure fpp cfg n ps).metrics) :
    ∃ q, emittedAt fpp cfg n ps q m := by
  have h2 := filterPure_forall2 fpp cfg n ps
  rw [List.forall₂_iff_get] at h2
  obtain ⟨hlen, hget⟩ := h2
  obtain ⟨i, hi⟩ := List.mem_iff_get.mp hm
  refine ⟨(filterPure fpp cfg n ps).polygons.get ⟨i.1, by rw [hlen]; exact i.2⟩, ?_⟩
  have h3 := hget i.1 (by rw [hlen]; exact i.2) i.2
  have hi2 : (filterPure fpp cfg n ps).metrics.get ⟨i.1, i.2⟩ = m := hi
  exact hi2 ▸ h3

lemma emitted_of_mem_poly (fpp : ℚ) (cfg : PipelineConfig) (n : ℕ)
    (ps : List Polygon) (q : Polygon)
    (hq : q ∈ (filterPure fpp cfg n ps).polygons) :
    ∃ m, emittedAt fpp cfg n ps q m := by
  have h2 := filterPure_forall2 fpp cfg n ps
  rw [List.forall₂_iff_get] at h2
  obtain ⟨hlen, hget⟩ := h2
  obtain ⟨i, hi⟩ := List.mem_iff_get.mp hq
  refine ⟨(filterPure fpp cfg n ps).metrics.get ⟨i.1, by rw [← hlen]; exact i.2⟩, ?_⟩
  have h3 := hget i.1 i.2 (by rw [← hlen]; exact i.2)
  have hi2 : (filterPure fpp cfg n ps).polygons.get ⟨i.1, i.2⟩ = q := hi
  exact hi2 ▸ h3

lemma empty_run :
    filterCandidates [([] : Polygon)] calib100 defaultConfig = .ok ⟨[], []⟩ := by
  rw [filterCandidates, filterFrom, if_pos rfl, filterFrom_nil]

/-- The id-related invariant every reachable `AcceptedRegionsModel` state
satisfies: stored ids are strictly increasing along the list and all below
the `_next_id` counter. -/
lemma reachable_invariant (m : ARModel) (h : Reachable m) :
    ((m.regionList.map AcceptedRegion.region_id).Pairwise (· < ·)) ∧
    ∀ r ∈ m.regionList, r.region_id < m.next_id := by
  induction h with
  | init => exact ⟨List.Pairwise.nil, by simp [ARModel.init]⟩
  | add m page a p pts hm ih =>
    obtain ⟨hpw, hlt⟩ := ih
    constructor
    · show ((m.regionList ++
        [(⟨page, m.next_id, a, p, pts⟩ : AcceptedRegion)]).map AcceptedRegion.region_id).Pairwise (· < ·)
      rw [List.map_append]
      apply List.pairwise_append.mpr
      refine ⟨hpw, by simp, ?_⟩
      intro x hx y hy
      obtain ⟨r, hr, hx⟩ := List.mem_map.mp hx
      have hy2 : y = m.next_id := by simpa using hy
      rw [← hx, hy2]
      exact hlt r hr
    · intro r hr
      show r.region_id < m.next_id + 1
      rcases List.mem_append.mp hr with h2 | h2
      · exact Nat.lt_succ_of_lt (hlt r h2)
      · have : r = ⟨page, m.next_id, a, p, pts⟩ := by simpa using h2
        rw [this]
        exact Nat.lt_succ_self _
  | remove m i hm ih =>
    obtain ⟨hpw, hlt⟩ := ih
    constructor
    · exact List.Pairwise.sublist ((List.filter_sublist _).map _) hpw
    · intro r hr
      exact hlt r (List.mem_of_mem_filter hr)

/-! ## Claim theorems -/

/-- Claim C1 counterexample: constructing a `Calibration` with
`pixel_distance = -1 ≤ 0` does NOT fail — the dataclass constructor stores the
fields unchecked, the `ValueError` is raised only when `feet_per_pixel` is
accessed, and a filter run that never touches the calibration (all-empty
input) completes successfully with the invalid calibration in hand. -/
theorem calibration_construction_unchecked :
    (Calibration.mk (-1) 5).pixel_distance = -1 ∧
    (Calibration.mk (-1) 5).real_distance_feet = 5 ∧
    feetPerPixel (Calibration.mk (-1) 5) =
      .error (.valueError ("pixel_distance must be > 0")) ∧
    filterCandidates [([] : Polygon)] (Calibration.mk (-1) 5) defaultConfig =
      .ok ⟨[], []⟩ := by
  refine ⟨rfl, rfl, ?_, ?_⟩
  · rw [feetPerPixel, if_pos (by norm_num : (Calibration.mk (-1) 5).pixel_distance ≤ 0)]
  · rw [filterCandidates, filterFrom, if_pos rfl, filterFrom_nil]

/-- Claim C1 (amended): `feet_per_pixel` returns `real_distance_feet /
pixel_distance` when both inputs are strictly positive; with a non-positive
input its access raises `ValueError` (the `InvalidCalibration` condition), and
`compute_geometry` propagates that error without producing any geometry —
so the failure surfaces before any geometry computation, but at first use,
not at construction. -/
theorem feet_per_pixel_spec (c : Calibration) :
    (0 < c.pixel_distance → 0 < c.real_distance_feet →
      feetPerPixel c = .ok (c.real_distance_feet / c.pixel_distance)) ∧
    (c.pixel_distance ≤ 0 →
      feetPerPixel c = .error (.valueError ("pixel_distance must be > 0"))) ∧
    (0 < c.pixel_distance → c.real_distance_feet ≤ 0 →
      feetPerPixel c = .error (.valueError ("real_distance_feet must be > 0"))) ∧
    (∀ (p : Polygon) (e : PyError), feetPerPixel c = .error e →
      computeGeometry p c = .error e) := by
  refine ⟨?_, ?_, ?_, ?_⟩
  · intro h1 h2
    rw [feetPerPixel, if_neg (not_le.mpr h1), if_neg (not_le.mpr h2)]
  · intro h1
    rw [feetPerPixel, if_pos h1]
  · intro h1 h2
    rw [feetPerPixel, if_neg (not_le.mpr h1), if_pos h2]
  · intro p e he
    rw [computeGeometry, he]

/-- Witness for C1 at concrete calibrations. -/
theorem feet_per_pixel_spec_witness :
    feetPerPixel ⟨100, 10⟩ = .ok ((10 : ℚ) / 100) ∧
    feetPerPixel ⟨100, -3⟩ =
      .error (.valueError ("real_distance_feet must be > 0")) :=
  ⟨(feet_per_pixel_spec ⟨100, 10⟩).1 (by norm_num) (by norm_num),
    (feet_per_pixel_spec ⟨100, -3⟩).2.2.1 (by norm_num) (by norm_num)⟩

/-- Claim C2 counterexample: for the 100×50 four-corner rectangle the emitted
metric has `vertex_count = 5`, not 4 — `len(polygon.exterior.coords)` counts
the repeated closing coordinate of the exterior ring. -/
theorem rect_vertex_count_five :
    filterCandidates [rectPoly] calib100 defaultConfig =
      .ok ⟨[rectPoly], [rectMetric]⟩ ∧
    rectMetric.vertex_count = 5 ∧ ¬ rectMetric.vertex_count = 4 :=
  ⟨rect_run, rfl, by simp [rectMetric]⟩

/-- Claim C2 (amended): with `pixel_distance=100`, `real_distance_feet=10`
(`feet_per_pixel = 1/10`) the 100×50 rectangle has `area_px = 5000`,
`perimeter_px = 300`, and the pipeline emits `area_sqft = 50`,
`perimeter_lf = 30`, `sanity_score = 0.06`, accepts the candidate under the
default thresholds, and leaves it unflagged; its `vertex_count` is 5 (the
exterior coordinate ring repeats the first vertex). -/
theorem rect_scenario_spec :
    feetPerPixel calib100 = .ok (1 / 10) ∧
    polyArea rectPoly = 5000 ∧
    polyLength rectPoly = 300 ∧
    coordsCount rectPoly = 5 ∧
    filterCandidates [rectPoly] calib100 defaultConfig =
      .ok ⟨[rectPoly], [rectMetric]⟩ ∧
    rectMetric.area_sqft = 50 ∧
    rectMetric.perimeter_lf = (((30 : ℚ)) : ℝ) ∧
    rectMetric.sanity_score = ((((3 / 50 : ℚ) : ℝ)) : EReal) ∧
    rectMetric.flagged = false :=
  ⟨feetPerPixel_calib100, polyArea_rect, polyLength_rect, coordsCount_rect,
    rect_run, rfl, rfl, rfl, rfl⟩

/-- Claim C3 counterexample: the exported data row for the rectangle scenario
is not `0,50.00,30.00,4,0.06,False` — the code writes the raw field values
(no 2-decimal rounding) and the vertex count is 5. -/
theorem rect_export_not_rounded :
    exportLines [rectMetric] ≠
      ["contour_index,area_sqft,perimeter_lf,vertex_count,sanity_score,flagged",
        "0,50.00,30.00,4,0.06,False"] := by
  rw [exportLines_rect]
  decide

/-- Claim C3 (amended): the export's first line is the declared header, and
the data row for the rectangle-scenario metric reads `0,50.0,30.0,5,0.06,False`
— raw decimal text with no rounding applied, and `vertex_count = 5`.
(Directory creation and file overwrite are filesystem effects outside the
embedding; the file content is modelled as its line list.) -/
theorem rect_export_spec :
    exportLines [rectMetric] =
      ["contour_index,area_sqft,perimeter_lf,vertex_count,sanity_score,flagged",
        "0,50.0,30.0,5,0.06,False"] ∧
    exportLines [] =
      ["contour_index,area_sqft,perimeter_lf,vertex_count,sanity_score,flagged"] :=
  ⟨exportLines_rect, rfl⟩

/-- Claim C4: the sanity score is raw pixel perimeter over raw pixel area,
`+∞` exactly when the pixel area is zero; every emitted metric's `flagged`
bit is true exactly when its sanity score exceeds the configured threshold;
and the accepted-polygon sequence is unchanged by any change of the
threshold — the flag never excludes a candidate. -/
theorem sanity_flag_spec (p : Polygon) (t t2 : ℚ) (ps : List Polygon)
    (calib : Calibration) (cfg : PipelineConfig) (res : PipelineResult) :
    (polyArea p = 0 → sanityScore p = ⊤) ∧
    (polyArea p ≠ 0 →
      sanityScore p = (((polyLength p / ((polyArea p : ℚ) : ℝ)) : ℝ) : EReal)) ∧
    (sanityFlag t (sanityScore p) = true ↔ (((t : ℝ)) : EReal) < sanityScore p) ∧
    (filterCandidates ps calib cfg = .ok res →
      ∀ m ∈ res.metrics,
        (m.flagged = true ↔
          (((cfg.sanity_ratio_threshold : ℝ)) : EReal) < m.sanity_score)) ∧
    ((filterCandidates ps calib (setThreshold cfg t2)).map PipelineResult.polygons =
      (filterCandidates ps calib cfg).map PipelineResult.polygons) := by
  refine ⟨?_, ?_, ?_, ?_, ?_⟩
  · intro h
    rw [sanityScore, if_pos h]
  · intro h
    rw [sanityScore, if_neg h]
  · rw [sanityFlag, decide_eq_true_eq]
  · intro hrun m hm
    rcases filterFrom_ok_inv calib cfg 0 ps res hrun with ⟨fpp, hcal, hres⟩ | ⟨hres, _⟩
    · rw [hres] at hm
      obtain ⟨q, hq⟩ := emitted_of_mem fpp cfg 0 ps m hm
      obtain ⟨j, hj, _, _, _, _, _, hm2⟩ := hq
      rw [hm2]
      show sanityFlag cfg.sanity_ratio_threshold (sanityScore q) = true ↔
        (((cfg.sanity_ratio_threshold : ℝ)) : EReal) < sanityScore q
      rw [sanityFlag, decide_eq_true_eq]
    · rw [hres] at hm
      simp at hm
  · exact filterFrom_setThreshold calib cfg t2 0 ps

/-- Witness for C4 at the rectangle scenario. -/
theorem sanity_flag_spec_witness :
    sanityScore rectPoly =
      (((polyLength rectPoly / ((polyArea rectPoly : ℚ) : ℝ)) : ℝ) : EReal) ∧
    (rectMetric.flagged = true ↔
      (((defaultConfig.sanity_ratio_threshold : ℝ)) : EReal) <
        rectMetric.sanity_score) := by
  have h := sanity_flag_spec rectPoly 0 0 [rectPoly] calib100 defaultConfig
    ⟨[rectPoly], [rectMetric]⟩
  refine ⟨h.2.1 (by rw [polyArea_rect]; norm_num), ?_⟩
  exact h.2.2.2.1 rect_run rectMetric (List.mem_singleton.mpr rfl)

/-- Claim C5: the two hard filters are independent — a non-empty polygon whose
physical area is below `min_area_sqft` gets no metric regardless of its vertex
count; one whose vertex count exceeds `max_vertex_count` gets no metric
regardless of its area; and one passing both checks is accepted (its input
index appears among the emitted contour indices). -/
theorem filter_independence_spec (calib : Calibration) (cfg : PipelineConfig)
    (fpp : ℚ) (ps : List Polygon) (res : PipelineResult) (j : ℕ)
    (hj : j < ps.length) (hcal : feetPerPixel calib = .ok fpp)
    (hrun : filterCandidates ps calib cfg = .ok res)
    (hne : ps.get ⟨j, hj⟩ ≠ []) :
    (polyArea (ps.get ⟨j, hj⟩) * fpp ^ 2 < cfg.min_area_sqft →
      j ∉ res.metrics.map CandidateMetrics.contour_index) ∧
    (cfg.max_vertex_count < ((coordsCount (ps.get ⟨j, hj⟩) : ℤ)) →
      j ∉ res.metrics.map CandidateMetrics.contour_index) ∧
    (¬ polyArea (ps.get ⟨j, hj⟩) * fpp ^ 2 < cfg.min_area_sqft →
      ¬ cfg.max_vertex_count < ((coordsCount (ps.get ⟨j, hj⟩) : ℤ)) →
      j ∈ res.metrics.map CandidateMetrics.contour_index) := by
  have hres : res = filterPure fpp cfg 0 ps := by
    rcases filterFrom_ok_inv calib cfg 0 ps res hrun with ⟨fpp2, hcal2, h⟩ | ⟨_, hall⟩
    · rw [hcal] at hcal2
      have : fpp = fpp2 := by injection hcal2
      rw [h, ← this]
    · exact absurd (hall (ps.get ⟨j, hj⟩) (ps.get_mem j hj)) hne
  subst hres
  have hmem : ∀ hidx : j ∈ (filterPure fpp cfg 0 ps).metrics.map CandidateMetrics.contour_index,
      ¬ polyArea (ps.get ⟨j, hj⟩) * fpp ^ 2 < cfg.min_area_sqft ∧
      ¬ cfg.max_vertex_count < ((coordsCount (ps.get ⟨j, hj⟩) : ℤ)) := by
    intro hidx
    obtain ⟨m, hm, hmj⟩ := List.mem_map.mp hidx
    obtain ⟨q, hq⟩ := emitted_of_mem fpp cfg 0 ps m hm
    obtain ⟨j2, hj2, hidx2, hqe, _, ha, hv, _⟩ := hq
    have hjj : j2 = j := by omega
    subst hjj
    have hqe2 : q = ps.get ⟨j2, hj⟩ := by
      rw [hqe]
    rw [hqe2] at ha hv
    exact ⟨ha, hv⟩
  refine ⟨?_, ?_, ?_⟩
  · intro ha hidx
    exact (hmem hidx).1 ha
  · intro hv hidx
    exact (hmem hidx).2 hv
  · intro ha hv
    have := filterPure_complete fpp cfg 0 ps j hj hne ha hv
    rwa [Nat.zero_add] at this

/-- Witness for C5: the rectangle passes both checks and its index 0 is
emitted. -/
theorem filter_independence_spec_witness :
    (0 : ℕ) ∈ [rectMetric].map CandidateMetrics.contour_index := by
  have h := filter_independence_spec calib100 defaultConfig (1 / 10) [rectPoly]
    ⟨[rectPoly], [rectMetric]⟩ 0 (by norm_num) feetPerPixel_calib100 rect_run
    (by decide)
  exact h.2.2
    (by show ¬ polyArea rectPoly * (1 / 10 : ℚ) ^ 2 < defaultConfig.min_area_sqft
        rw [polyArea_rect]; norm_num [defaultConfig])
    (by show ¬ defaultConfig.max_vertex_count < ((coordsCount rectPoly : ℤ))
        rw [coordsCount_rect]; norm_num [defaultConfig])

/-- Claim C6: on any successful run, accepted polygons and metrics have equal
length and are index-aligned — `metrics[i]` is exactly the record computed
from `polygons[i]`, whose `contour_index` locates that polygon in the input
sequence — contour indices are strictly increasing (extraction order, no
geometric sorting), and the run is a pure function of its input (repeated
runs coincide definitionally). -/
theorem filter_alignment_spec (calib : Calibration) (cfg : PipelineConfig)
    (ps : List Polygon) (res : PipelineResult)
    (hrun : filterCandidates ps calib cfg = .ok res) :
    res.polygons.length = res.metrics.length ∧
    (res.metrics.map CandidateMetrics.contour_index).Pairwise (· < ·) ∧
    (∀ (i : ℕ) (hi : i < res.polygons.length) (hi2 : i < res.metrics.length),
      ∃ hlt : (res.metrics.get ⟨i, hi2⟩).contour_index < ps.length,
        ps.get ⟨(res.metrics.get ⟨i, hi2⟩).contour_index, hlt⟩ =
          res.polygons.get ⟨i, hi⟩ ∧
        ∃ fpp, feetPerPixel calib = .ok fpp ∧
          res.metrics.get ⟨i, hi2⟩ =
            mkMetric fpp cfg ((res.metrics.get ⟨i, hi2⟩).contour_index)
              (res.polygons.get ⟨i, hi⟩)) ∧
    filterCandidates ps calib cfg = filterCandidates ps calib cfg := by
  rcases filterFrom_ok_inv calib cfg 0 ps res hrun with ⟨fpp, hcal, hres⟩ | ⟨hres, _⟩
  · subst hres
    refine ⟨(filterPure_forall2 fpp cfg 0 ps).length_eq,
      filterPure_pairwise fpp cfg 0 ps, ?_, rfl⟩
    intro i hi hi2
    have h3 := (List.forall₂_iff_get.mp (filterPure_forall2 fpp cfg 0 ps)).2 i hi hi2
    obtain ⟨j, hj, hidx, hq, _, _, _, hm⟩ := h3
    have hij : (((filterPure fpp cfg 0 ps).metrics.get ⟨i, hi2⟩).contour_index) = j := by
      omega
    refine ⟨by rw [hij]; exact hj, ?_, fpp, hcal, ?_⟩
    · have : (⟨((filterPure fpp cfg 0 ps).metrics.get ⟨i, hi2⟩).contour_index,
          by rw [hij]; exact hj⟩ : Fin ps.length) = ⟨j, hj⟩ := Fin.ext hij
      rw [this]
      exact hq.symm
    · rw [hidx]
      exact hm
  · subst hres
    refine ⟨rfl, List.Pairwise.nil, ?_, rfl⟩
    intro i hi
    exact absurd hi (Nat.not_lt_zero i)

/-- Witness for C6 at the rectangle run. -/
theorem filter_alignment_spec_witness :
    (PipelineResult.mk [rectPoly] [rectMetric]).polygons.length =
      (PipelineResult.mk [rectPoly] [rectMetric]).metrics.length ∧
    ([rectMetric].map CandidateMetrics.contour_index).Pairwise (· < ·) := by
  have h := filter_alignment_spec calib100 defaultConfig [rectPoly]
    ⟨[rectPoly], [rectMetric]⟩ rect_run
  exact ⟨h.1, h.2.1⟩

/-- Claim C7: a degenerate/empty polygon at any input position is skipped —
no metric carries its contour index, and the empty polygon never appears in
the accepted sequence. -/
theorem filter_skips_empty_spec (calib : Calibration) (cfg : PipelineConfig)
    (ps : List Polygon) (res : PipelineResult) (i : ℕ)
    (hrun : filterCandidates ps calib cfg = .ok res)
    (hi : ps.get? i = some ([] : Polygon)) :
    (∀ m ∈ res.metrics, m.contour_index ≠ i) ∧
    (([] : Polygon) ∉ res.polygons) := by
  rcases filterFrom_ok_inv calib cfg 0 ps res hrun with ⟨fpp, hcal, hres⟩ | ⟨hres, _⟩
  · subst hres
    constructor
    · intro m hm hidx
      obtain ⟨q, hq⟩ := emitted_of_mem fpp cfg 0 ps m hm
      obtain ⟨j, hj, hidx2, hqe, hne, _, _, _⟩ := hq
      have hji : j = i := by omega
      subst hji
      obtain ⟨hlt, hget⟩ := List.get?_eq_some.mp hi
      have : ps.get ⟨j, hj⟩ = [] := by
        rw [show (⟨j, hj⟩ : Fin ps.length) = ⟨j, hlt⟩ from Fin.ext rfl]
        exact hget
      rw [hqe] at hne
      exact hne this
    · intro hmem
      obtain ⟨m, hq⟩ := emitted_of_mem_poly fpp cfg 0 ps [] hmem
      obtain ⟨j, hj, _, _, hne, _, _, _⟩ := hq
      exact hne rfl
  · subst hres
    exact ⟨by simp, by simp⟩

/-- Witness for C7: a run whose only input is the empty polygon accepts
nothing. -/
theorem filter_skips_empty_spec_witness :
    ([] : Polygon) ∉ (PipelineResult.mk [] []).polygons :=
  (filter_skips_empty_spec calib100 defaultConfig [([] : Polygon)] ⟨[], []⟩ 0
    empty_run rfl).2

/-- Claim C8: with a valid calibration of scale `fpp`, `compute_geometry`
returns exactly `(area_px · fpp², perimeter_px · fpp)`; a zero pixel area
gives zero physical area; and under a second calibration whose scale is
`k · fpp` the area scales by `k²` and the perimeter by `k`. -/
theorem geometry_scaling_spec (p : Polygon) (c c2 : Calibration)
    (fpp fpp2 k : ℚ) (h : feetPerPixel c = .ok fpp)
    (h2 : feetPerPixel c2 = .ok fpp2) (hk : fpp2 = k * fpp) :
    computeGeometry p c = .ok (polyArea p * fpp ^ 2, polyLength p * ((fpp : ℝ))) ∧
    (polyArea p = 0 → polyArea p * fpp ^ 2 = 0) ∧
    computeGeometry p c2 =
      .ok (k ^ 2 * (polyArea p * fpp ^ 2),
        ((k : ℝ)) * (polyLength p * ((fpp : ℝ)))) := by
  refine ⟨by rw [computeGeometry, h], ?_, ?_⟩
  · intro hz
    rw [hz, zero_mul]
  · have hg : computeGeometry p c2 =
        .ok (polyArea p * fpp2 ^ 2, polyLength p * ((fpp2 : ℝ))) := by
      rw [computeGeometry, h2]
    have e1 : polyArea p * (k * fpp) ^ 2 = k ^ 2 * (polyArea p * fpp ^ 2) := by ring
    have e2 : polyLength p * (((k * fpp : ℚ)) : ℝ) =
        ((k : ℝ)) * (polyLength p * ((fpp : ℝ))) := by
      push_cast
      ring
    rw [hg, hk, e1, e2]

/-- Witness for C8: doubling the real-world distance doubles the scale,
quadrupling the rectangle's area factor. -/
theorem geometry_scaling_spec_witness :
    computeGeometry rectPoly ⟨100, 20⟩ =
      .ok ((2 : ℚ) ^ 2 * (polyArea rectPoly * (1 / 10 : ℚ) ^ 2),
        (((2 : ℚ)) : ℝ) * (polyLength rectPoly * (((1 / 10 : ℚ)) : ℝ))) :=
  (geometry_scaling_spec rectPoly calib100 ⟨100, 20⟩ (1 / 10) (1 / 5) 2
    feetPerPixel_calib100 (by rw [feetPerPixel]; norm_num) (by norm_num)).2.2

/-- Claim C9 counterexample: a set `close_kernel_px = 0` (which is `< 1`)
does NOT make the pipeline fail — Python's `if close_kernel_px:` treats 0 as
falsy, so `thickness_gate` silently skips the close and returns the opened
mask (here `12`), with no validation error of any kind. -/
theorem thickness_gate_zero_close :
    thicknessGate (fun k r => r + k.toNat) (fun k r => r * 1000 + k.toNat)
      (7 : ℕ) 5 (some 0) = 12 ∧
    thicknessGate (fun k r => r + k.toNat) (fun k r => r * 1000 + k.toNat)
      (7 : ℕ) 5 none = 12 := by
  constructor <;> rfl

/-- Claim C9 (amended): `adaptive_binarize` raises `ValueError` for every even
block size before thresholding and succeeds for every odd one; kernel sizes
are never validated by the pipeline's own code — `thickness_gate` with a set
`close_kernel_px = 0` (or `None`) returns the opened mask unchanged without
error, and any non-zero value (valid or not) is handed straight to the
external morphology primitive, which runs only after binarization. -/
theorem config_validation_spec {R : Type} (thresh : ℤ → ℤ → R → R) (gray : R)
    (bs c : ℤ) (mOpen mClose : ℤ → R → R) (binary : R) (lw : ℤ) :
    (bs % 2 = 0 → adaptiveBinarize thresh gray bs c =
      .error (.valueError ("adaptive_block_size must be odd"))) ∧
    (¬ bs % 2 = 0 → adaptiveBinarize thresh gray bs c = .ok (thresh bs c gray)) ∧
    (thicknessGate mOpen mClose binary lw none = mOpen lw binary) ∧
    (thicknessGate mOpen mClose binary lw (some 0) = mOpen lw binary) ∧
    (∀ ck : ℤ, ck ≠ 0 →
      thicknessGate mOpen mClose binary lw (some ck) =
        mClose ck (mOpen lw binary)) := by
  refine ⟨?_, ?_, rfl, ?_, ?_⟩
  · intro h
    rw [adaptiveBinarize, if_pos h]
  · intro h
    rw [adaptiveBinarize, if_neg h]
  · rw [thicknessGate]
    exact if_neg (by norm_num)
  · intro ck hck
    rw [thicknessGate]
    exact if_pos hck

/-- Witness for C9 at an even and an odd block size. -/
theorem config_validation_spec_witness :
    adaptiveBinarize (fun _ _ r => r) (0 : ℕ) 36 10 =
      .error (.valueError ("adaptive_block_size must be odd")) ∧
    adaptiveBinarize (fun _ _ r => r) (0 : ℕ) 35 10 = .ok 0 :=
  ⟨(config_validation_spec (fun _ _ r => r) (0 : ℕ) 36 10 (fun _ r => r)
      (fun _ r => r) 0 0).1 (by norm_num),
    (config_validation_spec (fun _ _ r => r) (0 : ℕ) 35 10 (fun _ r => r)
      (fun _ r => r) 0 0).2.1 (by norm_num)⟩

/-- Claim C10: in every reachable `AcceptedRegionsModel` state, stored region
ids are strictly increasing (hence unique); `add_region` hands out exactly
the counter value, strictly greater than every stored id, and bumps the
counter; `remove_region` keeps the counter (so ids are never reused after
deletions) and removes exactly the regions whose id matches, preserving the
rest and their order. -/
theorem accepted_regions_spec (m : ARModel) (h : Reachable m) :
    ((m.regionList.map AcceptedRegion.region_id).Pairwise (· < ·)) ∧
    (∀ r ∈ m.regionList, r.region_id < m.next_id) ∧
    (∀ (page : ℤ) (a p : ℚ) (pts : List (ℚ × ℚ)),
      (addRegion m page a p pts).2.region_id = m.next_id ∧
      (addRegion m page a p pts).1.next_id = m.next_id + 1 ∧
      ∀ r ∈ m.regionList, r.region_id < (addRegion m page a p pts).2.region_id) ∧
    (∀ i : ℕ,
      (∀ r, r ∈ (removeRegion m i).regionList ↔
        r ∈ m.regionList ∧ r.region_id ≠ i) ∧
      (removeRegion m i).regionList.Sublist m.regionList ∧
      (removeRegion m i).next_id = m.next_id) := by
  obtain ⟨hpw, hlt⟩ := reachable_invariant m h
  refine ⟨hpw, hlt, ?_, ?_⟩
  · intro page a p pts
    exact ⟨rfl, rfl, hlt⟩
  · intro i
    refine ⟨?_, List.filter_sublist _, rfl⟩
    intro r
    rw [removeRegion]
    simp [List.mem_filter]

/-- Witness for C10 at the freshly constructed model. -/
theorem accepted_regions_spec_witness :
    ((ARModel.init.regionList.map AcceptedRegion.region_id).Pairwise (· < ·)) :=
  (accepted_regions_spec ARModel.init Reachable.init).1

end PlanTakeoff

